import Mathlib

/-!
Verification of the AppSync resolver pair in `amplify/data/bedrock.js`
(main variant) and its historical variant, together with the backend glue
they are wired to.

The resolver code runs in the AppSync JavaScript runtime.  We embed it
shallowly:

* JavaScript JSON values are modelled by the inductive type `JVal`
  (JSON cannot produce `undefined`, so `undefined` is modelled as
  `Option.none` wherever a value may be missing).
* `JSON.parse` is modelled by the executable recursive-descent parser
  `jsonParse` below (numbers become `Rat`, which is exact for every value
  the resolver ever inspects; `\uXXXX` escapes outside the valid scalar
  range fall back to the NUL character, a corner no claim touches).
* A JavaScript function that can throw is modelled as returning
  `Option`, with `none` standing for an uncaught exception.
-/

/-- JSON values as produced by the JavaScript runtime's `JSON.parse`. -/
inductive JVal where
  | null
  | bool (b : Bool)
  | num (q : Rat)
  | str (s : String)
  | arr (elems : List JVal)
  | obj (fields : List (String × JVal))

/-- JavaScript truthiness of a JSON value (arrays and objects are always
truthy; `null`, `false`, `0` and `""` are falsy). -/
def jsTruthy : JVal → Bool
  | JVal.null => false
  | JVal.bool b => b
  | JVal.num q => if q = 0 then false else true
  | JVal.str s => if s = "" then false else true
  | JVal.arr _ => true
  | JVal.obj _ => true

/-- Last binding of a key in an object's field list.  `JSON.parse` keeps
the last of duplicate keys, which this lookup realises. -/
def lookupLast (fs : List (String × JVal)) (k : String) : Option JVal :=
  fs.foldl (fun acc p => if p.1 = k then some p.2 else acc) none

/-- JavaScript property access `v.k` on a value that is neither `null`
nor `undefined`: an absent property (or a primitive receiver) yields
`undefined`, modelled as `none`. -/
def jsGet : JVal → String → Option JVal
  | JVal.obj fs, k => lookupLast fs k
  | _, _ => none

/-- JavaScript truthiness where the value may be `undefined` (`none`). -/
def jsOptTruthy : Option JVal → Bool
  | none => false
  | some v => jsTruthy v

/-- Model of `Array.isArray` applied to a possibly-`undefined` value. -/
def optIsArray : Option JVal → Bool
  | some (JVal.arr _) => true
  | _ => false

/-- Elements of a value known to be an array (`[]` otherwise; only ever
used behind an `Array.isArray` guard). -/
def arrElems : Option JVal → List JVal
  | some (JVal.arr xs) => xs
  | _ => []

/-- JavaScript indexing `v[i]` on a possibly-`undefined` value that is an
array: out-of-range or non-array access yields `undefined` (`none`). -/
def jsIndex (ov : Option JVal) (i : Nat) : Option JVal :=
  match ov with
  | some (JVal.arr xs) => xs[i]?
  | _ => none

/-- JavaScript strict equality `v === s` against a string literal, where
`v` may be `undefined`. -/
def strictEqStr : Option JVal → String → Bool
  | some (JVal.str t), s => if t = s then true else false
  | _, _ => false

/-- Model of `typeof v === "string"` where `v` may be `undefined`. -/
def typeofIsString : Option JVal → Bool
  | some (JVal.str _) => true
  | _ => false

/-! ### A model of the runtime's `JSON.parse` -/

/-- The four JSON whitespace characters. -/
def isWsChar (c : Char) : Bool :=
  c = ' ' || c = Char.ofNat 9 || c = Char.ofNat 10 || c = Char.ofNat 13

/-- Skip JSON whitespace. -/
def dropWs (cs : List Char) : List Char :=
  cs.dropWhile isWsChar

def isDigitChar (c : Char) : Bool :=
  '0' ≤ c && c ≤ '9'

def digitVal (c : Char) : Nat :=
  c.toNat - '0'.toNat

/-- Consume a maximal run of decimal digits, returning their value, their
count and the rest of the input. -/
def takeDigits : List Char → Nat → Nat → Nat × Nat × List Char
  | c :: cs, acc, cnt =>
    if isDigitChar c then takeDigits cs (acc * 10 + digitVal c) (cnt + 1)
    else (acc, cnt, c :: cs)
  | [], acc, cnt => (acc, cnt, [])

/-- Numeric value of one hexadecimal digit (either letter case), by code
point: `0`-`9` are 48-57, `A`-`F` are 65-70, `a`-`f` are 97-102. -/
def hexVal (c : Char) : Option Nat :=
  let n := c.toNat
  if 48 ≤ n && n ≤ 57 then some (n - 48)
  else if 65 ≤ n && n ≤ 70 then some (n - 55)
  else if 97 ≤ n && n ≤ 102 then some (n - 87)
  else none

/-- Assemble a rational from the parsed sign, mantissa digits, fraction
length and decimal exponent of a JSON number literal. -/
def ratOfParts (neg : Bool) (mant : Nat) (fracLen : Nat) (e : Int) : Rat :=
  let base : Rat := ((if neg then -(mant : Int) else (mant : Int)) : Int)
  let q : Rat := base / ((10 : Rat) ^ fracLen)
  if 0 ≤ e then q * ((10 : Rat) ^ e.toNat) else q / ((10 : Rat) ^ (-e).toNat)

/-- Parse the exponent part of a JSON number, after the `e`/`E` marker. -/
def parseExpPart (cs : List Char) : Option (Int × List Char) :=
  let p := match cs with
    | '-' :: r => (true, r)
    | '+' :: r => (false, r)
    | _ => (false, cs)
  match p.2 with
  | c :: _ =>
    if isDigitChar c then
      let t := takeDigits p.2 0 0
      some ((if p.1 then -(t.1 : Int) else (t.1 : Int)), t.2.2)
    else none
  | [] => none

/-- Parse the optional exponent suffix of a JSON number literal. -/
def parseNumTail (neg : Bool) (mant fracLen : Nat) (cs : List Char) :
    Option (Rat × List Char) :=
  match cs with
  | 'e' :: r => (parseExpPart r).map (fun p => (ratOfParts neg mant fracLen p.1, p.2))
  | 'E' :: r => (parseExpPart r).map (fun p => (ratOfParts neg mant fracLen p.1, p.2))
  | _ => some (ratOfParts neg mant fracLen 0, cs)

/-- Parse a JSON number literal (sign, integer part with the no-leading-zero
rule, optional fraction, optional exponent). -/
def parseNumber (cs : List Char) : Option (Rat × List Char) :=
  let p := match cs with
    | '-' :: r => (true, r)
    | _ => (false, cs)
  match p.2 with
  | c :: _ =>
    if isDigitChar c then
      let t := takeDigits p.2 0 0
      if c = '0' && t.2.1 != 1 then none
      else
        match t.2.2 with
        | '.' :: r =>
          match r with
          | d :: _ =>
            if isDigitChar d then
              let f := takeDigits r 0 0
              parseNumTail p.1 (t.1 * 10 ^ f.2.1 + f.1) f.2.1 f.2.2
            else none
          | [] => none
        | rest => parseNumTail p.1 t.1 0 rest
    else none
  | [] => none

/-- Parse the body of a JSON string literal (the opening quote already
consumed), handling the escape sequences `JSON.parse` accepts and
rejecting raw control characters. -/
def parseStrChars : List Char → List Char → Option (String × List Char)
  | [], _ => none
  | '"' :: rest, acc => some (String.mk acc.reverse, rest)
  | '\\' :: '"' :: r, acc => parseStrChars r ('"' :: acc)
  | '\\' :: '\\' :: r, acc => parseStrChars r ('\\' :: acc)
  | '\\' :: '/' :: r, acc => parseStrChars r ('/' :: acc)
  | '\\' :: 'b' :: r, acc => parseStrChars r (Char.ofNat 8 :: acc)
  | '\\' :: 'f' :: r, acc => parseStrChars r (Char.ofNat 12 :: acc)
  | '\\' :: 'n' :: r, acc => parseStrChars r (Char.ofNat 10 :: acc)
  | '\\' :: 'r' :: r, acc => parseStrChars r (Char.ofNat 13 :: acc)
  | '\\' :: 't' :: r, acc => parseStrChars r (Char.ofNat 9 :: acc)
  | '\\' :: 'u' :: a :: b :: c :: d :: r, acc =>
    match hexVal a, hexVal b, hexVal c, hexVal d with
    | some ha, some hb, some hc, some hd =>
      parseStrChars r (Char.ofNat (((ha * 16 + hb) * 16 + hc) * 16 + hd) :: acc)
    | _, _, _, _ => none
  | '\\' :: _, _ => none
  | ch :: rest, acc =>
    if ch.toNat < 32 then none else parseStrChars rest (ch :: acc)

/-- Which grammar production the fueled parser is working on. -/
inductive PMode where
  | val
  | items
  | members

/-- Result of one fueled parsing step. -/
inductive POut where
  | v (x : JVal)
  | vs (xs : List JVal)
  | ms (fs : List (String × JVal))

/-- Fueled recursive-descent parser for JSON.  `PMode.val` parses one
value, `PMode.items` the element list of an array after `[`, and
`PMode.members` the member list of an object after `\x7b`.  The fuel only
bounds recursion depth; `jsonParse` supplies enough for any input. -/
def parseP : Nat → PMode → List Char → Option (POut × List Char)
  | 0, _, _ => none
  | f + 1, PMode.val, cs =>
    match dropWs cs with
    | 'n' :: 'u' :: 'l' :: 'l' :: r => some (POut.v JVal.null, r)
    | 't' :: 'r' :: 'u' :: 'e' :: r => some (POut.v (JVal.bool true), r)
    | 'f' :: 'a' :: 'l' :: 's' :: 'e' :: r => some (POut.v (JVal.bool false), r)
    | '"' :: r => (parseStrChars r []).map (fun p => (POut.v (JVal.str p.1), p.2))
    | '[' :: r =>
      match dropWs r with
      | ']' :: r2 => some (POut.v (JVal.arr []), r2)
      | r2 =>
        match parseP f PMode.items r2 with
        | some (POut.vs xs, r3) => some (POut.v (JVal.arr xs), r3)
        | _ => none
    | '\x7b' :: r =>
      match dropWs r with
      | '\x7d' :: r2 => some (POut.v (JVal.obj []), r2)
      | r2 =>
        match parseP f PMode.members r2 with
        | some (POut.ms fs, r3) => some (POut.v (JVal.obj fs), r3)
        | _ => none
    | c :: r =>
      if c = '-' || isDigitChar c then
        (parseNumber (c :: r)).map (fun p => (POut.v (JVal.num p.1), p.2))
      else none
    | [] => none
  | f + 1, PMode.items, cs =>
    match parseP f PMode.val cs with
    | some (POut.v x, r) =>
      match dropWs r with
      | ',' :: r2 =>
        match parseP f PMode.items r2 with
        | some (POut.vs xs, r3) => some (POut.vs (x :: xs), r3)
        | _ => none
      | ']' :: r2 => some (POut.vs [x], r2)
      | _ => none
    | _ => none
  | f + 1, PMode.members, cs =>
    match dropWs cs with
    | '"' :: r =>
      match parseStrChars r [] with
      | some (k, r1) =>
        match dropWs r1 with
        | ':' :: r2 =>
          match parseP f PMode.val r2 with
          | some (POut.v x, r3) =>
            match dropWs r3 with
            | ',' :: r4 =>
              match parseP f PMode.members r4 with
              | some (POut.ms fs, r5) => some (POut.ms ((k, x) :: fs), r5)
              | _ => none
            | '\x7d' :: r4 => some (POut.ms [(k, x)], r4)
            | _ => none
          | _ => none
        | _ => none
      | none => none
    | _ => none

/-- Model of the JavaScript runtime's `JSON.parse`: `none` models a thrown
`SyntaxError`.  The whole input must be consumed up to trailing
whitespace. -/
def jsonParse (s : String) : Option JVal :=
  match parseP (2 * s.length + 4) PMode.val s.data with
  | some (POut.v x, rest) => if (dropWs rest).isEmpty then some x else none
  | _ => none

example : jsonParse "not json" = none := rfl
example : jsonParse "\x7b\"content\":[]\x7d" = some (JVal.obj [("content", JVal.arr [])]) := rfl
example : jsonParse "\x7b\"content\":[\x7b\"type\":\"text\",\"text\":\"Pasta with tomatoes\"\x7d]\x7d" =
    some (JVal.obj [("content", JVal.arr [JVal.obj [("type", JVal.str "text"), ("text", JVal.str "Pasta with tomatoes")]])]) := rfl
example : jsonParse "\x7b\"content\":[null]\x7d" = some (JVal.obj [("content", JVal.arr [JVal.null])]) := rfl

/-! ### Models of the runtime's string coercion and `JSON.stringify` -/

/-- Decimal digits of a natural number, most significant first. -/
def natDigits : Nat → List Char
  | n =>
    if h : n < 10 then [Char.ofNat (n + '0'.toNat)]
    else natDigits (n / 10) ++ [Char.ofNat (n % 10 + '0'.toNat)]
  decreasing_by exact Nat.div_lt_self (Nat.lt_of_lt_of_le (by omega) (Nat.le_of_not_lt h)) (by omega)

/-- Render an integer in decimal. -/
def intToString (i : Int) : String :=
  if i < 0 then String.mk ('-' :: natDigits i.natAbs) else String.mk (natDigits i.natAbs)

/-- Long-division digits of `n / d` after the decimal point, `fuel` digits
at most, dropping the trailing zero tail. -/
def fracDigits : Nat → Nat → Nat → List Char
  | 0, _, _ => []
  | _ + 1, 0, _ => []
  | fuel + 1, n, d =>
    let q := (n * 10) / d
    let r := (n * 10) % d
    Char.ofNat (q + '0'.toNat) :: fracDigits fuel r d

/-- Model of the JavaScript rendering `String(q)` of a number.  Exact for
integers (the only numbers the resolver ever renders); for non-integral
rationals it prints up to 25 decimal digits, which matches JavaScript on
every short terminating decimal. -/
def ratToString (q : Rat) : String :=
  if q.den = 1 then intToString q.num
  else
    intToString (q.num / (q.den : Int)) ++ "." ++
      String.mk (fracDigits 25 (q.num.natAbs % q.den) q.den)

mutual

/-- Model of the JavaScript coercion `String(v)` on a JSON value:
primitives print their canonical form, arrays join their elements with
`","` (null elements becoming empty), plain objects print
`[object Object]`. -/
def jsToString : JVal → String
  | JVal.null => "null"
  | JVal.bool true => "true"
  | JVal.bool false => "false"
  | JVal.num q => ratToString q
  | JVal.str s => s
  | JVal.arr xs => jsJoinList "," xs
  | JVal.obj _ => "[object Object]"
termination_by v => (sizeOf v, 0)

/-- Model of `arr.join(sep)`: elements coerced with `String`, except that
`null` (and `undefined`, which JSON cannot produce) becomes `""`. -/
def jsJoinList (sep : String) : List JVal → String
  | [] => ""
  | [v] => jsJoinElem v
  | v :: rest => jsJoinElem v ++ sep ++ jsJoinList sep rest
termination_by xs => (sizeOf xs, 2)

/-- Element coercion used by `Array.prototype.join`. -/
def jsJoinElem : JVal → String
  | JVal.null => ""
  | v => jsToString v
termination_by v => (sizeOf v, 1)

end

/-- Plain join of strings with a separator, used to state the spec's
`I.join(", ")` property. -/
def joinStrings (sep : String) : List String → String
  | [] => ""
  | [s] => s
  | s :: rest => s ++ sep ++ joinStrings sep rest

/-- Escape one character for a JSON string literal as `JSON.stringify`
does. -/
def jsonEscChar (c : Char) : String :=
  if c = '"' then "\\\""
  else if c = '\\' then "\\\\"
  else if c = Char.ofNat 8 then "\\b"
  else if c = Char.ofNat 12 then "\\f"
  else if c = Char.ofNat 10 then "\\n"
  else if c = Char.ofNat 13 then "\\r"
  else if c = Char.ofNat 9 then "\\t"
  else if c.toNat < 32 then
    "\\u00" ++ String.mk [Char.ofNat (c.toNat / 16 + 48),
      if c.toNat % 16 < 10 then Char.ofNat (c.toNat % 16 + 48)
      else Char.ofNat (c.toNat % 16 + 87)]
  else String.mk [c]

/-- Quote a string as a JSON string literal. -/
def jsonQuote (s : String) : String :=
  "\"" ++ String.join (s.data.map jsonEscChar) ++ "\""

mutual

/-- Model of `JSON.stringify` on a JSON value (no indentation, as the
resolver calls it when building the request body). -/
def jsonStringify : JVal → String
  | JVal.null => "null"
  | JVal.bool true => "true"
  | JVal.bool false => "false"
  | JVal.num q => ratToString q
  | JVal.str s => jsonQuote s
  | JVal.arr xs => "[" ++ stringifyItems xs ++ "]"
  | JVal.obj fs => "\x7b" ++ stringifyMembers fs ++ "\x7d"
termination_by v => (sizeOf v, 0)

/-- Comma-separated serialisation of array elements. -/
def stringifyItems : List JVal → String
  | [] => ""
  | [v] => jsonStringify v
  | v :: rest => jsonStringify v ++ "," ++ stringifyItems rest
termination_by xs => (sizeOf xs, 1)

/-- Comma-separated serialisation of object members. -/
def stringifyMembers : List (String × JVal) → String
  | [] => ""
  | [(k, v)] => jsonQuote k ++ ":" ++ jsonStringify v
  | (k, v) :: rest => jsonQuote k ++ ":" ++ jsonStringify v ++ "," ++ stringifyMembers rest
termination_by fs => (sizeOf fs, 1)

end

/-! ### The `request` resolver function of `amplify/data/bedrock.js` -/

/-- Arguments record `ctx.args` of the resolver invocation:
`ingredients` is absent (`none`) or an arbitrary JSON value — the source
defends against non-array values. -/
structure ReqArgs where
  ingredients : Option JVal

/-- Invocation context seen by `request` (AppSync always supplies an
`args` object). -/
structure ReqCtx where
  args : ReqArgs

/-- The `params` record of the built HTTP request. -/
structure ReqParams where
  headers : List (String × String)
  body : String
deriving DecidableEq

/-- The HTTP request description returned by `request`. -/
structure ModelRequest where
  resourcePath : String
  method : String
  params : ReqParams
deriving DecidableEq

/-- `Array.isArray`. -/
def isJsArray : JVal → Bool
  | JVal.arr _ => true
  | _ => false

/-- The joined-ingredients string: `const { ingredients = [] } = ctx.args;`
followed by
`Array.isArray(ingredients) ? ingredients.join(", ") : String(ingredients)`. -/
def promptIngredients (ctx : ReqCtx) : String :=
  match ctx.args.ingredients.getD (JVal.arr []) with
  | JVal.arr xs => jsJoinList ", " xs
  | v => jsToString v

/-- The prompt template of `request`. -/
def requestPrompt (ctx : ReqCtx) : String :=
  "Suggest a recipe idea using these ingredients: " ++ promptIngredients ctx ++ "."

/-- The conversational wrapper placed around the prompt in the request
body. -/
def wrappedPrompt (p : String) : String :=
  "\n\nHuman: " ++ p ++ "\n\nAssistant:"

/-- The object serialised into the request body. -/
def requestEnvelope (p : String) : JVal :=
  JVal.obj
    [("anthropic_version", JVal.str "bedrock-2023-05-31"),
     ("max_tokens", JVal.num 1000),
     ("messages", JVal.arr
       [JVal.obj
         [("role", JVal.str "user"),
          ("content", JVal.arr
            [JVal.obj
              [("type", JVal.str "text"),
               ("text", JVal.str (wrappedPrompt p))]])]])]

/-- Embedding of `request` from `amplify/data/bedrock.js` (the logging
side effect is dropped; it reads only values built here, so it cannot
throw). -/
def request (ctx : ReqCtx) : ModelRequest :=
  { resourcePath := "/model/anthropic.claude-3-sonnet-20240229-v1:0/invoke"
    method := "POST"
    params :=
      { headers := [("Content-Type", "application/json")]
        body := jsonStringify (requestEnvelope (requestPrompt ctx)) } }

/-! ### The `response` resolver function and its historical variant -/

/-- AppSync error record carried in `ctx.error` when the data-source call
failed.  AppSync reports errors as objects (message and type), and
JavaScript objects are always truthy, so `if (ctx.error)` is exactly a
presence test on this field. -/
structure ErrInfo where
  message : String
  errorType : String
deriving DecidableEq

/-- The data-source result record `ctx.result`.  An absent `body`
property behaves in the source exactly like the unparseable string
`"undefined"` (via `JSON.parse` coercion), so `body` is kept a plain
string. -/
structure ResultRec where
  body : String
deriving DecidableEq

/-- Invocation context seen by `response`: the result record may be
absent (AppSync omits it when the invocation failed), and the error
record may be absent. -/
structure ResCtx where
  result : Option ResultRec
  error : Option ErrInfo
deriving DecidableEq

/-- The resolver result record `\x7b body \x7d`. -/
structure ResRec where
  body : String
deriving DecidableEq

/-- Fixed upstream-error message of the main `response`. -/
def bedrockErrMsg : String :=
  "レシピの生成中にエラーが発生しました。詳細についてはバックエンドログを確認してください。"

/-- Fixed upstream-error message of the historical variant. -/
def variantErrMsg : String :=
  "レシピの生成中にエラーが発生しました。詳細はログをご確認ください。"

/-- Fixed parse-failure message (identical in both variants). -/
def parseFailMsg : String :=
  "レシピの解析中にエラーが発生しました: 無効なレスポンス形式。"

/-- Fixed unexpected-structure message (identical in both variants). -/
def shapeFailMsg : String :=
  "レシピの解析中にエラーが発生しました: 予期せぬレスポンス構造。"

/-- `parsedBody.content[0]`. -/
def firstContent (pb : JVal) : Option JVal :=
  jsIndex (jsGet pb "content") 0

/-- The first three conjuncts of the source's shape condition:
`parsedBody && Array.isArray(parsedBody.content) && parsedBody.content.length > 0`. -/
def contentHeadGuard (pb : JVal) : Bool :=
  jsTruthy pb && optIsArray (jsGet pb "content") &&
    decide (0 < (arrElems (jsGet pb "content")).length)

/-- The last two conjuncts, on the first content element:
`x0.type === "text" && typeof x0.text === "string"`. -/
def contentTailOk (x0 : JVal) : Bool :=
  strictEqStr (jsGet x0 "type") "text" && typeofIsString (jsGet x0 "text")

/-- The tail checks applied to a possibly-`undefined` first element. -/
def optContentTailOk : Option JVal → Bool
  | some x0 => contentTailOk x0
  | none => false

/-- The source's full shape condition, including the defensive
`parsedBody.content[0] &&` truthiness conjunct between head and tail. -/
def bedrockShapeOk (pb : JVal) : Bool :=
  contentHeadGuard pb && jsOptTruthy (firstContent pb) &&
    optContentTailOk (firstContent pb)

/-- `parsedBody.content[0].text` once the shape condition holds. -/
def extractText (pb : JVal) : String :=
  match firstContent pb with
  | some x0 =>
    (match jsGet x0 "text" with
     | some (JVal.str t) => t
     | _ => "")
  | none => ""

/-- Embedding of `response` from `amplify/data/bedrock.js`.  The first
statement of the source is `util.log(..., ctx.result.body)`, which
dereferences `ctx.result` before anything else: when the result record is
absent this throws a `TypeError`, modelled as `none`.  All later paths
return a record. -/
def response (ctx : ResCtx) : Option ResRec :=
  match ctx.result with
  | none => none
  | some r =>
    if ctx.error.isSome then some ⟨bedrockErrMsg⟩
    else
      match jsonParse r.body with
      | none => some ⟨parseFailMsg⟩
      | some pb =>
        if bedrockShapeOk pb then some ⟨extractText pb⟩
        else some ⟨shapeFailMsg⟩

/-- Embedding of the historical `response` variant (`src/unnamed/part_001`).
Its shape condition omits the `parsedBody.content[0] &&` conjunct, so the
`content[0].type` access inside the condition throws a `TypeError`
(modelled as `none`) when the first content element is `null`; a `none`
element is impossible there because the length guard precedes, but the
access on it would throw as well. -/
def responseVariant (ctx : ResCtx) : Option ResRec :=
  match ctx.result with
  | none => none
  | some r =>
    if ctx.error.isSome then some ⟨variantErrMsg⟩
    else
      match jsonParse r.body with
      | none => some ⟨parseFailMsg⟩
      | some pb =>
        if contentHeadGuard pb then
          match firstContent pb with
          | some JVal.null => none
          | some x0 =>
            if contentTailOk x0 then some ⟨extractText pb⟩
            else some ⟨shapeFailMsg⟩
          | none => none
        else some ⟨shapeFailMsg⟩

/-- The divergence condition between the two variants on the no-error
path: a parsed body whose non-empty content array starts with `null`. -/
def nullFirstContent (pb : JVal) : Bool :=
  contentHeadGuard pb &&
    (match firstContent pb with
     | some JVal.null => true
     | _ => false)

/-! ### Helper lemmas -/

/-- A value with a bound property is an object, hence truthy. -/
lemma jsTruthy_of_jsGet_some {v : JVal} {k : String} {w : JVal}
    (h : jsGet v k = some w) : jsTruthy v = true := by
  cases v <;> simp [jsGet, jsTruthy] at h ⊢

/-- Under the head guard, the first content element exists. -/
lemma firstContent_isSome_of_headGuard {pb : JVal}
    (h : contentHeadGuard pb = true) : (firstContent pb).isSome := by
  unfold contentHeadGuard at h
  unfold firstContent jsIndex
  cases hc : jsGet pb "content" with
  | none => rw [hc] at h; simp [optIsArray] at h
  | some v =>
    cases v with
    | arr xs =>
      rw [hc] at h
      simp only [optIsArray, arrElems, Bool.and_eq_true, decide_eq_true_eq] at h
      cases xs with
      | nil => simp at h
      | cons x rest => simp
    | null => rw [hc] at h; simp [optIsArray] at h
    | bool b => rw [hc] at h; simp [optIsArray] at h
    | num q => rw [hc] at h; simp [optIsArray] at h
    | str s => rw [hc] at h; simp [optIsArray] at h
    | obj fs => rw [hc] at h; simp [optIsArray] at h

/-- `response` returns a record exactly when the result record is
present: the source dereferences `ctx.result.body` in its very first
statement, and every later path returns. -/
lemma response_isSome_iff (ctx : ResCtx) :
    (response ctx).isSome ↔ ctx.result.isSome := by
  unfold response
  cases ctx.result with
  | none => simp
  | some r =>
    simp only [Option.isSome_some, iff_true]
    by_cases he : ctx.error.isSome
    · simp [he]
    · simp only [he, if_false]
      cases jsonParse r.body with
      | none => simp
      | some pb => by_cases hs : bedrockShapeOk pb <;> simp [hs]

/-- A falsy non-null first element fails the tail checks in both
variants: the falsy JSON values other than `null` are `false`, `0` and
`""`, all primitives without a `type` property. -/
lemma contentTailOk_eq_false_of_falsy {x0 : JVal}
    (hnn : x0 ≠ JVal.null) (hf : jsTruthy x0 = false) :
    contentTailOk x0 = false := by
  cases x0 with
  | null => exact absurd rfl hnn
  | bool b => simp [contentTailOk, jsGet, strictEqStr]
  | num q => simp [contentTailOk, jsGet, strictEqStr]
  | str s => simp [contentTailOk, jsGet, strictEqStr]
  | arr xs => simp [jsTruthy] at hf
  | obj fs => simp [jsTruthy] at hf

/-! ### Claims about `response` (C1, C2, C3) -/

/-- C1 counterexample: on a context with no result record, `response`
does not return a result record — the opening
`util.log(..., ctx.result.body)` throws, so the contract "always returns
a result record, never raises" is false as stated. -/
theorem response_always_record_cex :
    (response { result := none, error := none }).isSome = false := rfl

/-- C1 (amended): for every invocation context whose `result` record is
present, `response` returns a result record — whose `body` field is a
string by construction — on every outcome (upstream error, parse
failure, shape failure, success). -/
theorem response_always_record (ctx : ResCtx) (h : ctx.result.isSome) :
    (response ctx).isSome :=
  (response_isSome_iff ctx).mpr h

/-- Witness for C1 at a concrete context. -/
theorem response_always_record_wit :
    (response { result := some ⟨"not json"⟩, error := none }).isSome :=
  response_always_record { result := some ⟨"not json"⟩, error := none } rfl

/-- C2 counterexample: with an error indicator present but the result
record absent, `response` throws on its first statement instead of
returning the fixed upstream-error message. -/
theorem error_fixed_message_cex :
    response { result := none, error := some ⟨"task timed out", "InternalFailure"⟩ } = none := rfl

/-- C2 (amended): whenever the error indicator is present and the result
record is present, `response` returns the fixed upstream-error message,
regardless of what the result body contains. -/
theorem error_fixed_message (ctx : ResCtx) (he : ctx.error.isSome)
    (hr : ctx.result.isSome) : response ctx = some ⟨bedrockErrMsg⟩ := by
  unfold response
  cases h : ctx.result with
  | none => rw [h] at hr; simp at hr
  | some r => simp [he]

/-- Witness for C2 at a concrete context with a malformed body. -/
theorem error_fixed_message_wit :
    response { result := some ⟨"garbage ###"⟩,
               error := some ⟨"access denied", "Unauthorized"⟩ } = some ⟨bedrockErrMsg⟩ :=
  error_fixed_message _ rfl rfl

/-- C3 (confirmed): `response` dereferences `ctx.result.body` in its
first statement, before the `ctx.error` check, so it returns a record
exactly when the result record is present; with the result absent it
raises even when the error indicator is set. -/
theorem response_requires_result :
    (∀ ctx : ResCtx, (response ctx).isSome ↔ ctx.result.isSome) ∧
    (∀ e : ErrInfo, response { result := none, error := some e } = none) :=
  ⟨response_isSome_iff, fun _ => rfl⟩

/-! ### Claims about the failure paths (C6, C7) -/

/-- C6 (confirmed): with no error and a body that parses but fails the
ordered shape checks, `response` returns the fixed unexpected-structure
message. -/
theorem shape_failure_fixed_message (ctx : ResCtx) (r : ResultRec) (pb : JVal)
    (he : ctx.error = none) (hr : ctx.result = some r)
    (hp : jsonParse r.body = some pb) (hs : bedrockShapeOk pb = false) :
    response ctx = some ⟨shapeFailMsg⟩ := by
  unfold response
  rw [hr, he]
  simp only [Option.isSome_none, Bool.false_eq_true, if_false]
  rw [hp]
  simp [hs]

/-- Witness for C6: the spec's example body with an empty content
array yields the unexpected-structure message. -/
theorem shape_failure_fixed_message_wit :
    response { result := some ⟨"\x7b\"content\":[]\x7d"⟩, error := none } =
      some ⟨shapeFailMsg⟩ :=
  shape_failure_fixed_message _ ⟨"\x7b\"content\":[]\x7d"⟩
    (JVal.obj [("content", JVal.arr [])]) rfl rfl rfl rfl

/-- C7 (confirmed): with no error and a body that is not parseable as
JSON, `response` returns the fixed invalid-response-format message. -/
theorem parse_failure_fixed_message (ctx : ResCtx) (r : ResultRec)
    (he : ctx.error = none) (hr : ctx.result = some r)
    (hp : jsonParse r.body = none) :
    response ctx = some ⟨parseFailMsg⟩ := by
  unfold response
  rw [hr, he]
  simp only [Option.isSome_none, Bool.false_eq_true, if_false]
  rw [hp]

/-- Witness for C7: the spec's example body `"not json"` yields the
parse-failure message. -/
theorem parse_failure_fixed_message_wit :
    response { result := some ⟨"not json"⟩, error := none } = some ⟨parseFailMsg⟩ :=
  parse_failure_fixed_message _ ⟨"not json"⟩ rfl rfl rfl

/-! ### Claim about the success path (C5) -/

/-- C5 (confirmed): with no error, a parsed body whose `content` field is
an array whose first element exists, has `type` equal to the literal
`"text"` and a string `text` field, `response` returns that text as the
result body. -/
theorem success_extracts_text (ctx : ResCtx) (r : ResultRec) (pb : JVal)
    (xs : List JVal) (x0 : JVal) (t : String)
    (he : ctx.error = none) (hr : ctx.result = some r)
    (hp : jsonParse r.body = some pb)
    (hc : jsGet pb "content" = some (JVal.arr xs))
    (h0 : xs[0]? = some x0)
    (hty : jsGet x0 "type" = some (JVal.str "text"))
    (htx : jsGet x0 "text" = some (JVal.str t)) :
    response ctx = some ⟨t⟩ := by
  have hfc : firstContent pb = some x0 := by
    unfold firstContent jsIndex
    rw [hc]
    exact h0
  have hlen : 0 < xs.length := by
    cases xs with
    | nil => simp at h0
    | cons a l => simp
  have hguard : contentHeadGuard pb = true := by
    unfold contentHeadGuard
    rw [hc, jsTruthy_of_jsGet_some hc]
    simp [optIsArray, arrElems, hlen]
  have hshape : bedrockShapeOk pb = true := by
    unfold bedrockShapeOk
    rw [hguard, hfc]
    simp [jsOptTruthy, optContentTailOk, jsTruthy_of_jsGet_some hty,
      contentTailOk, hty, htx, strictEqStr, typeofIsString]
  have hex : extractText pb = t := by
    unfold extractText
    rw [hfc]
    show (match jsGet x0 "text" with | some (JVal.str u) => u | _ => "") = t
    rw [htx]
  unfold response
  rw [hr, he]
  simp only [Option.isSome_none, Bool.false_eq_true, if_false]
  rw [hp]
  simp only [hshape, if_true, hex]

/-- Witness for C5: the spec's example body yields
`some ⟨"Pasta with tomatoes"⟩`. -/
theorem success_extracts_text_wit :
    response { result := some ⟨"\x7b\"content\":[\x7b\"type\":\"text\",\"text\":\"Pasta with tomatoes\"\x7d]\x7d"⟩,
               error := none } = some ⟨"Pasta with tomatoes"⟩ :=
  success_extracts_text _ ⟨"\x7b\"content\":[\x7b\"type\":\"text\",\"text\":\"Pasta with tomatoes\"\x7d]\x7d"⟩
    (JVal.obj [("content", JVal.arr [JVal.obj [("type", JVal.str "text"), ("text", JVal.str "Pasta with tomatoes")]])])
    [JVal.obj [("type", JVal.str "text"), ("text", JVal.str "Pasta with tomatoes")]]
    (JVal.obj [("type", JVal.str "text"), ("text", JVal.str "Pasta with tomatoes")])
    "Pasta with tomatoes" rfl rfl rfl rfl rfl rfl rfl

/-! ### Claim C4: the historical variant versus the main `response` -/

/-- C4 counterexample: on a response whose first content element is
`null`, the main `response` survives (returning the fixed
unexpected-structure message) while the historical variant — whose shape
condition lacks the `parsedBody.content[0] &&` conjunct — throws a
`TypeError` evaluating `content[0].type`; the two are therefore not
behaviorally equivalent, and the variant does not survive a null first
content element. -/
theorem variant_equivalence_cex :
    response { result := some ⟨"\x7b\"content\":[null]\x7d"⟩, error := none } =
      some ⟨shapeFailMsg⟩ ∧
    responseVariant { result := some ⟨"\x7b\"content\":[null]\x7d"⟩, error := none } =
      none :=
  ⟨rfl, rfl⟩

/-- When the first element is not `null`, the main variant's extra
truthiness conjunct is redundant: a falsy non-null element already fails
the tail checks. -/
lemma truthy_and_tailOk {x0 : JVal} (h : x0 ≠ JVal.null) :
    (jsTruthy x0 && contentTailOk x0) = contentTailOk x0 := by
  cases ht : jsTruthy x0 with
  | true => simp
  | false => simp [contentTailOk_eq_false_of_falsy h ht]

/-- C4 (amended): the two `response` functions agree on every context
whose result record is present, except for the two divergences the code
forces: on the no-error path they agree whenever the parsed body does not
have a non-empty content array starting with `null` (where the main
function returns the unexpected-structure message and the variant
throws), and on the error path both return fixed messages but with
different wording. -/
theorem variant_equivalence_amended :
    (∀ (ctx : ResCtx) (r : ResultRec), ctx.result = some r → ctx.error = none →
      (∀ pb : JVal, jsonParse r.body = some pb → nullFirstContent pb = false) →
      response ctx = responseVariant ctx) ∧
    (∀ ctx : ResCtx, ctx.error.isSome → ctx.result.isSome →
      response ctx = some ⟨bedrockErrMsg⟩ ∧
      responseVariant ctx = some ⟨variantErrMsg⟩) := by
  constructor
  · intro ctx r hr he hnf
    unfold response responseVariant
    rw [hr, he]
    simp only [Option.isSome_none, Bool.false_eq_true, if_false]
    cases hp : jsonParse r.body with
    | none => rfl
    | some pb =>
      dsimp only
      have hnull := hnf pb hp
      by_cases hg : contentHeadGuard pb
      · have hfcs := firstContent_isSome_of_headGuard hg
        cases hfc : firstContent pb with
        | none => rw [hfc] at hfcs; simp at hfcs
        | some x0 =>
          have hx0nn : x0 ≠ JVal.null := by
            intro hx
            subst hx
            unfold nullFirstContent at hnull
            rw [hg, hfc] at hnull
            simp at hnull
          have hmain : bedrockShapeOk pb = contentTailOk x0 := by
            unfold bedrockShapeOk
            rw [hg, hfc]
            simp only [jsOptTruthy, optContentTailOk, Bool.true_and]
            exact truthy_and_tailOk hx0nn
          rw [hmain, if_pos hg]
          cases x0 with
          | null => exact absurd rfl hx0nn
          | bool b => rfl
          | num q => rfl
          | str s => rfl
          | arr ys => rfl
          | obj fs => rfl
      · have hgf : contentHeadGuard pb = false := by simpa using hg
        have hb : bedrockShapeOk pb = false := by
          unfold bedrockShapeOk
          rw [hgf]
          simp
        rw [hb, if_neg hg]
        rfl
  · intro ctx he hr
    cases h : ctx.result with
    | none => rw [h] at hr; simp at hr
    | some r =>
      unfold response responseVariant
      rw [h]
      simp [he]

/-- Witness for C4: at a concrete no-error context the two functions
yield the same record, and at a concrete error context they yield their
respective fixed messages. -/
theorem variant_equivalence_amended_wit :
    response { result := some ⟨"not json"⟩, error := none } =
      responseVariant { result := some ⟨"not json"⟩, error := none } ∧
    response { result := some ⟨""⟩, error := some ⟨"boom", "InternalFailure"⟩ } =
      some ⟨bedrockErrMsg⟩ ∧
    responseVariant { result := some ⟨""⟩, error := some ⟨"boom", "InternalFailure"⟩ } =
      some ⟨variantErrMsg⟩ := by
  refine ⟨?_, ?_, ?_⟩
  · exact variant_equivalence_amended.1
      { result := some ⟨"not json"⟩, error := none } ⟨"not json"⟩ rfl rfl
      (fun pb hpb => by
        rw [show jsonParse "not json" = none from rfl] at hpb
        exact Option.noConfusion hpb)
  · exact (variant_equivalence_amended.2
      { result := some ⟨""⟩, error := some ⟨"boom", "InternalFailure"⟩ } rfl rfl).1
  · exact (variant_equivalence_amended.2
      { result := some ⟨""⟩, error := some ⟨"boom", "InternalFailure"⟩ } rfl rfl).2

/-! ### Claims about `request` (C8, C9, C10) -/

/-- On a list of strings, the modelled `Array.join` coincides with the
plain string join. -/
lemma jsJoinList_map_str (sep : String) (I : List String) :
    jsJoinList sep (I.map JVal.str) = joinStrings sep I := by
  induction I with
  | nil => simp [jsJoinList, joinStrings]
  | cons s rest ih =>
    cases rest with
    | nil => simp [jsJoinList, joinStrings, jsJoinElem, jsToString]
    | cons s2 r2 =>
      simp only [List.map_cons] at ih ⊢
      simp [jsJoinList, joinStrings, jsJoinElem, jsToString, ih]

/-- C8 (confirmed): the prompt embeds the ingredients joined with a
comma-space separator when they form a proper sequence, becomes the
empty-list prompt when they are absent, and degrades to the JavaScript
string coercion of the whole value when they are not a sequence. -/
theorem prompt_joins_ingredients :
    (∀ I : List String,
      requestPrompt { args := { ingredients := some (JVal.arr (I.map JVal.str)) } } =
        "Suggest a recipe idea using these ingredients: " ++ joinStrings ", " I ++ ".") ∧
    requestPrompt { args := { ingredients := none } } =
      "Suggest a recipe idea using these ingredients: ." ∧
    (∀ v : JVal, isJsArray v = false →
      requestPrompt { args := { ingredients := some v } } =
        "Suggest a recipe idea using these ingredients: " ++ jsToString v ++ ".") := by
  refine ⟨?_, ?_, ?_⟩
  · intro I
    unfold requestPrompt promptIngredients
    dsimp only [Option.getD]
    rw [jsJoinList_map_str]
  · unfold requestPrompt promptIngredients
    dsimp only [Option.getD]
    rw [show jsJoinList ", " ([] : List JVal) = "" from by simp [jsJoinList]]
    rfl
  · intro v hv
    unfold requestPrompt promptIngredients
    dsimp only [Option.getD]
    cases v with
    | null => rfl
    | bool b => rfl
    | num q => rfl
    | str s => rfl
    | arr xs => simp [isJsArray] at hv
    | obj fs => rfl

/-- Witness for C8: a two-element ingredient list, the no-ingredients
prompt, and a non-sequence value. -/
theorem prompt_joins_ingredients_wit :
    requestPrompt { args := { ingredients := some (JVal.arr [JVal.str "tomato", JVal.str "cheese"]) } } =
      "Suggest a recipe idea using these ingredients: tomato, cheese." ∧
    requestPrompt { args := { ingredients := none } } =
      "Suggest a recipe idea using these ingredients: ." ∧
    requestPrompt { args := { ingredients := some (JVal.str "tofu") } } =
      "Suggest a recipe idea using these ingredients: tofu." := by
  refine ⟨?_, prompt_joins_ingredients.2.1, ?_⟩
  · rw [show JVal.arr [JVal.str "tomato", JVal.str "cheese"] =
        JVal.arr (List.map JVal.str ["tomato", "cheese"]) from rfl,
      prompt_joins_ingredients.1 ["tomato", "cheese"]]
    rfl
  · rw [prompt_joins_ingredients.2.2 (JVal.str "tofu") rfl]
    simp [jsToString]

/-- C9 (confirmed): every built request has the fixed resource path
naming one foundation-model version, method POST, a JSON content-type
header, and a body serialising the fixed API-version tag, the fixed
1000-token budget, and the single-element user message wrapping the
prompt. -/
theorem request_fixed_shape (ctx : ReqCtx) :
    (request ctx).resourcePath = "/model/anthropic.claude-3-sonnet-20240229-v1:0/invoke" ∧
    (request ctx).method = "POST" ∧
    (request ctx).params.headers = [("Content-Type", "application/json")] ∧
    (request ctx).params.body = jsonStringify (JVal.obj
      [("anthropic_version", JVal.str "bedrock-2023-05-31"),
       ("max_tokens", JVal.num 1000),
       ("messages", JVal.arr
         [JVal.obj
           [("role", JVal.str "user"),
            ("content", JVal.arr
              [JVal.obj
                [("type", JVal.str "text"),
                 ("text", JVal.str ("\n\nHuman: " ++ requestPrompt ctx ++ "\n\nAssistant:"))]])]])]) :=
  ⟨rfl, rfl, rfl, rfl⟩

/-- C10 (confirmed): `request` is a total function of the context — it
returns a well-formed `ModelRequest` for every context, including every
malformed `ingredients` value, which degrades to the JavaScript string
coercion instead of raising. -/
theorem request_never_fails :
    (∀ ctx : ReqCtx, request ctx =
      { resourcePath := "/model/anthropic.claude-3-sonnet-20240229-v1:0/invoke"
        method := "POST"
        params :=
          { headers := [("Content-Type", "application/json")]
            body := jsonStringify (requestEnvelope (requestPrompt ctx)) } }) ∧
    (∀ v : JVal, isJsArray v = false →
      promptIngredients { args := { ingredients := some v } } = jsToString v) := by
  refine ⟨fun ctx => rfl, ?_⟩
  intro v hv
  unfold promptIngredients
  dsimp only [Option.getD]
  cases v with
  | null => rfl
  | bool b => rfl
  | num q => rfl
  | str s => rfl
  | arr xs => simp [isJsArray] at hv
  | obj fs => rfl

/-- Witness for C10: a non-sequence ingredients value still yields a
request, with the stringified fallback in the prompt position. -/
theorem request_never_fails_wit :
    request { args := { ingredients := some (JVal.bool true) } } =
      { resourcePath := "/model/anthropic.claude-3-sonnet-20240229-v1:0/invoke"
        method := "POST"
        params :=
          { headers := [("Content-Type", "application/json")]
            body := jsonStringify (requestEnvelope
              (requestPrompt { args := { ingredients := some (JVal.bool true) } })) } } ∧
    promptIngredients { args := { ingredients := some (JVal.bool true) } } = "true" := by
  refine ⟨request_never_fails.1 _, ?_⟩
  rw [request_never_fails.2 (JVal.bool true) rfl]
  simp [jsToString]
